import Mathlib

/-!
Verification of the example programs of the `ghcp-advanced-prompting`
repository.  The JavaScript/TypeScript functions under
`examples/troubleshooting/` and `examples/context-engineering/` are shallowly
embedded as Lean functions; machine-independent behaviour (fetch outcomes,
database drivers) is supplied through explicit oracle arguments.
-/

namespace Ghcp

/-! ## Generic string helpers (JS built-ins used by the examples) -/

/-- The characters matched by the ECMAScript regexp class `\s`
(WhiteSpace and LineTerminator code points). -/
def isJsWs (c : Char) : Bool :=
  c == ' ' || c == '\t' || c == '\n' || c == Char.ofNat 0x0B ||
  c == Char.ofNat 0x0C || c == '\r' || c == Char.ofNat 0xA0 ||
  c == Char.ofNat 0x1680 ||
  (0x2000 ≤ c.toNat && c.toNat ≤ 0x200A) ||
  c == Char.ofNat 0x2028 || c == Char.ofNat 0x2029 ||
  c == Char.ofNat 0x202F || c == Char.ofNat 0x205F ||
  c == Char.ofNat 0x3000 || c == Char.ofNat 0xFEFF

/-- Does the list start with the given pattern?  (Used to embed the scanning
behaviour of `String.prototype.replace` and `String.prototype.includes`.) -/
def startsWithL : List Char → List Char → Bool
  | [], _ => true
  | _ :: _, [] => false
  | p :: ps, c :: cs => p == c && startsWithL ps cs

/-- `haystack.includes(needle)` on lists of characters. -/
def containsSubL (pat : List Char) : List Char → Bool
  | [] => startsWithL pat []
  | c :: cs => startsWithL pat (c :: cs) || containsSubL pat cs

/-- `haystack.includes(needle)` for strings. -/
def containsSubStr (pat s : String) : Bool :=
  containsSubL pat.data s.data

/-- `s.replace(/pat/g, rep)` for a fixed non-empty pattern `p :: ps`:
left-to-right scan, each match replaced by `rep`, matched text not rescanned. -/
def replaceAllL (p : Char) (ps rep : List Char) : List Char → List Char
  | [] => []
  | c :: cs =>
    if startsWithL (p :: ps) (c :: cs) then
      rep ++ replaceAllL p ps rep (cs.drop ps.length)
    else
      c :: replaceAllL p ps rep cs
termination_by l => l.length
decreasing_by
  · simp only [List.length_cons, List.length_drop]; omega
  · simp only [List.length_cons]; omega

/-- `String.prototype.trim` (drops JS whitespace at both ends). -/
def jsTrimL (l : List Char) : List Char :=
  ((l.dropWhile isJsWs).reverse.dropWhile isJsWs).reverse

/-! ## JS-style values

A small universe of JavaScript values, enough for the arguments the examples
validate with `typeof` / truthiness checks.  `vobj` stands for any plain
(non-array) object, `varr` for any array value where only array-ness matters. -/

inductive JsLite where
  | vnull
  | vstr (s : String)
  | vnum (n : Int)
  | vbool (b : Bool)
  | vobj
  | varr
deriving DecidableEq

/-- JS truthiness test: `null`/`undefined`, `''`, `0` and `false` are falsy;
objects and arrays are truthy. -/
def JsLite.falsy : JsLite → Bool
  | .vnull => true
  | .vstr s => s == ""
  | .vnum n => n == 0
  | .vbool b => !b
  | .vobj => false
  | .varr => false

/-- `typeof v === 'string'`. -/
def JsLite.isStr : JsLite → Bool
  | .vstr _ => true
  | _ => false

/-- `Array.isArray(v)`. -/
def JsLite.isArr : JsLite → Bool
  | .varr => true
  | _ => false

/-! ## `BlogApiService` (blog-system/api-service.ts)

`getPosts`/`getPost` wrap a `fetch` in `try`/`catch` and always return an
`ApiResponse`.  The outcome of the `fetch` (rejection, HTTP response, JSON
body or JSON parse failure) is passed in as a `FetchEv` value; a thrown value
is modelled by whether it is an `Error` plus its message. -/

/-- The standard API response shape of `api-service.ts` (lines 7-12);
`data : T | null` is modelled as `Option T`. -/
structure ApiResponse (T : Type) where
  success : Bool
  data : Option T
  message : String
  errors : List String
deriving DecidableEq

/-- One complete outcome of `await fetch(...)` plus `await response.json()`:
either the fetch (or a response method) threw, or a response arrived with
`status`/`statusText` and a JSON-parse outcome.  `J` is the parsed body type;
a parse failure carries the thrown value (is-an-`Error` flag and message). -/
inductive FetchEv (J : Type) where
  | thrown (isErr : Bool) (msg : String)
  | resp (status : Nat) (statusText : String) (json : Except (Bool × String) J)

/-- `response.ok` (status in the range 200-299). -/
def respOk (status : Nat) : Bool :=
  200 ≤ status && status ≤ 299

/-- `error instanceof Error ? error.message : 'Unknown error'`. -/
def errMsgOf (isErr : Bool) (msg : String) : String :=
  if isErr then msg else "Unknown error"

/-- `BlogApiService.getPosts` (api-service.ts lines 17-40).  The parsed JSON
body is `data`, whose `posts` field may be absent (`Option (List P)`). -/
def getPosts {P : Type} (ev : FetchEv (Option (List P))) : ApiResponse (List P) :=
  match ev with
  | .thrown ie m =>
    ⟨false, none, "Failed to retrieve posts", [errMsgOf ie m]⟩
  | .resp st stx json =>
    if respOk st then
      match json with
      | .error (ie, m) =>
        ⟨false, none, "Failed to retrieve posts", [errMsgOf ie m]⟩
      | .ok posts =>
        ⟨true, posts, "Posts retrieved successfully", []⟩
    else
      ⟨false, none, "Failed to retrieve posts",
        [errMsgOf true ("HTTP " ++ toString st ++ ": " ++ stx)]⟩

/-- `BlogApiService.getPost` (api-service.ts lines 42-65).  The parsed body is
the post itself (`none` models a JSON `null` body). -/
def getPost {P : Type} (ev : FetchEv (Option P)) : ApiResponse P :=
  match ev with
  | .thrown ie m =>
    ⟨false, none, "Failed to retrieve post", [errMsgOf ie m]⟩
  | .resp st stx json =>
    if respOk st then
      match json with
      | .error (ie, m) =>
        ⟨false, none, "Failed to retrieve post", [errMsgOf ie m]⟩
      | .ok post =>
        ⟨true, post, "Post retrieved successfully", []⟩
    else
      ⟨false, none, "Failed to retrieve post",
        [errMsgOf true ("HTTP " ++ toString st ++ ": " ++ stx)]⟩

/-! ## `calculateAverageRobust` (edge-case-scenarios.js lines 262-365)

Values that may appear in the input array.  `vobj` is any plain non-array
object, `vnan` the number `NaN` (and likewise any non-finite number, which the
function treats identically); finite numbers are embedded as rationals. -/

inductive AvgVal where
  | vnull
  | vnum (q : ℚ)
  | vnan
  | vbool (b : Bool)
  | vobj
  | varr (l : List AvgVal)

/-- The options object of `calculateAverageRobust` with its defaults. -/
structure AvgOptions where
  skipInvalid : Bool := true
  treatNullAsZero : Bool := false
  precision : Nat := 2
  handleOverflow : Bool := true

/-- `Number(x.toFixed(p))`: round to `p` decimal places, ties to the larger
value, read back as a number (modelled over exact rationals). -/
def jsToFixed (q : ℚ) (p : Nat) : ℚ :=
  ((⌊q * (10 : ℚ) ^ p + 1 / 2⌋ : ℤ) : ℚ) / (10 : ℚ) ^ p

mutual

/-- The collection loop of `calculateAverageRobust` (lines 291-338): builds
`validNumbers` from the array elements; `none` models the strict-mode
(`skipInvalid === false`) early `return null`.  Nested arrays recurse through
the full function, pushing the (already rounded) nested average. -/
def collectNums (o : AvgOptions) (l : List AvgVal) : Option (List ℚ) :=
  match l with
  | [] => some []
  | v :: rest =>
    match v with
    | .vnull =>
      if o.treatNullAsZero then (collectNums o rest).map (fun t => (0 : ℚ) :: t)
      else if !o.skipInvalid then none
      else collectNums o rest
    | .varr inner =>
      match calcAvg o (.varr inner) with
      | some q => (collectNums o rest).map (fun t => q :: t)
      | none => if !o.skipInvalid then none else collectNums o rest
    | .vobj =>
      if !o.skipInvalid then none else collectNums o rest
    | .vnum q => (collectNums o rest).map (fun t => q :: t)
    | .vbool b =>
      (collectNums o rest).map (fun t => (if b then (1 : ℚ) else 0) :: t)
    | .vnan =>
      if !o.skipInvalid then none else collectNums o rest
termination_by sizeOf l
decreasing_by all_goals simp_wf <;> omega

/-- `calculateAverageRobust(values, options)`: `null` results are `none`.
Single finite numbers are rounded and returned, non-numbers give `null`,
arrays go through the collection loop and the rounded mean of the valid
numbers (sums of rationals are always finite, so the overflow `throw`
branches are unreachable in this embedding). -/
def calcAvg (o : AvgOptions) (v : AvgVal) : Option ℚ :=
  match v with
  | .vnull => none
  | .varr l =>
    if l.isEmpty then none
    else
      match collectNums o l with
      | none => none
      | some nums =>
        if nums.isEmpty then none
        else some (jsToFixed (nums.sum / (nums.length : ℚ)) o.precision)
  | .vnum q => some (jsToFixed q o.precision)
  | .vnan => none
  | .vbool _ => none
  | .vobj => none
termination_by sizeOf v
decreasing_by all_goals simp_wf

end

/-- The default options value of `calculateAverageRobust`. -/
def defaultAvgOptions : AvgOptions := {}

/-! ## `DatabaseService` (fix-suggestions.js lines 758-970)

Driver errors carry a `code` and a `message`; the classifier helpers below
are the `isDeadlockError` / `isConnectionError` / `isConstraintError` /
`parseConstraintError` methods (lines 929-955). -/

structure DbErr where
  code : String
  msg : String
deriving DecidableEq

/-- `DatabaseService.isDeadlockError` (lines 929-932). -/
def isDeadlockError (e : DbErr) : Bool :=
  e.code == "ER_LOCK_DEADLOCK" || containsSubStr "deadlock" e.msg

/-- `DatabaseService.isConnectionError` (lines 934-939). -/
def isConnectionError (e : DbErr) : Bool :=
  e.code == "ECONNRESET" || e.code == "ECONNREFUSED" || e.code == "ETIMEDOUT" ||
  containsSubStr "connection" e.msg

/-- `DatabaseService.isConstraintError` (lines 941-945). -/
def isConstraintError (e : DbErr) : Bool :=
  e.code == "ER_DUP_ENTRY" || e.code == "ER_NO_REFERENCED_ROW" ||
  containsSubStr "constraint" e.msg

/-- `DatabaseService.parseConstraintError` (lines 947-955). -/
def parseConstraintError (e : DbErr) : String :=
  if e.code == "ER_DUP_ENTRY" then "Duplicate entry - record already exists"
  else if e.code == "ER_NO_REFERENCED_ROW" then "Referenced record does not exist"
  else "Data constraint violation"

/-- The fields of `DatabaseService` set by its constructor (lines 759-764). -/
structure DatabaseService where
  queryTimeout : Nat := 30000
  retryAttempts : Nat := 3

/-- A `DatabaseService` as built by the constructor. -/
def dbService : DatabaseService := {}

/-- Outcome of `executeQuery`: the settled result and the number of attempts
made (oracle invocations).  `.ok none` is the `undefined` produced if the
`while` guard fails before the first iteration (possible only when
`retryAttempts = 0`). -/
structure QueryRun (R : Type) where
  result : Except String (Option R)
  attempts : Nat

/-- The retry loop of `DatabaseService.executeQuery` (lines 780-853).
`oracle a` is the outcome of the whole `try` body of attempt `a` (getting a
pooled connection, setting the session timeout, racing the query against the
query-timeout promise): either rows or the thrown driver error; the
`finally` release never rethrows.  `a` counts attempts already made
(`attempt` in the source) and `fuel` is `retry - a`, so `fuel = 0` is
exactly the failing `while` guard.  In the catch block `attempt` has been
incremented, so the retry checks compare `a + 1 < retry`; the random /
exponential backoff delays do not affect the settled value and are not
recorded here. -/
def eqStep {R : Type} (retry a : Nat) (next : QueryRun R) :
    Except DbErr R → QueryRun R
  | .ok r => ⟨.ok (some r), a + 1⟩
  | .error e =>
    if isDeadlockError e then
      if a + 1 < retry then next
      else ⟨.error "Database deadlock - operation failed after retries", a + 1⟩
    else if isConnectionError e then
      if a + 1 < retry then next
      else ⟨.error "Database connection failed after retries", a + 1⟩
    else if isConstraintError e then
      ⟨.error ("Database constraint violation: " ++ parseConstraintError e), a + 1⟩
    else if containsSubStr "timeout" e.msg then
      ⟨.error "Database query timed out - operation took too long", a + 1⟩
    else
      ⟨.error ("Database operation failed: " ++ e.msg), a + 1⟩

/-- The loop itself: attempt `a` runs `eqStep` on `oracle a`, and `next` is
what the remaining iterations produce. -/
def eqLoop {R : Type} (oracle : Nat → Except DbErr R) (retry : Nat) :
    Nat → Nat → QueryRun R
  | 0, a => ⟨.ok none, a⟩
  | fuel + 1, a => eqStep retry a (eqLoop oracle retry fuel (a + 1)) (oracle a)

/-- `DatabaseService.executeQuery` (lines 766-854): validates the query and
parameter arguments, then runs the retry loop with `this.retryAttempts`
iterations allowed. -/
def executeQuery {R : Type} (svc : DatabaseService) (query params : JsLite)
    (oracle : Nat → Except DbErr R) : QueryRun R :=
  if query.falsy || !query.isStr then ⟨.error "Valid SQL query is required", 0⟩
  else if !params.falsy && !params.isArr then
    ⟨.error "Query parameters must be an array", 0⟩
  else eqLoop oracle svc.retryAttempts svc.retryAttempts 0

/-- One element of the `operations` argument of `transaction`. -/
structure Operation where
  query : JsLite
  params : JsLite
deriving DecidableEq

/-- `!operation.query || !operation.params` (line 872). -/
def opInvalid (op : Operation) : Bool :=
  op.query.falsy || op.params.falsy

/-- The operation loop of `DatabaseService.transaction` (lines 869-882):
`exec i` is the outcome of `connection.execute` on operation `i` (rows or
the thrown error's message); results are pushed in operation order,
and the first invalid operation or failing execute throws. -/
def txLoop {R : Type} (exec : Nat → Except String R) :
    List Operation → Nat → Except String (List R)
  | [], _ => .ok []
  | op :: rest, i =>
    if opInvalid op then
      .error ("Invalid operation at index " ++ toString i ++ ": missing query or params")
    else
      match exec i with
      | .ok r => (txLoop exec rest (i + 1)).map (fun rs => r :: rs)
      | .error m =>
        .error ("Transaction failed at operation " ++ toString (i + 1) ++ ": " ++ m)

/-- Outcome of `transaction`: the settled result and whether `commit`
respectively `rollback` ran on the connection. -/
structure TxResult (R : Type) where
  result : Except String (List R)
  committed : Bool
  rolledBack : Bool

/-- `DatabaseService.transaction` (lines 856-907) for a live connection
(`getConnection`, `beginTransaction`, `commit`, `rollback` and `release`
succeed; their own failure paths only log).  The empty-array guard throws
before the `try`, so no rollback happens there; any throw inside the loop is
caught, rolled back and rethrown; `commit` runs only after every operation
succeeded. -/
def transaction {R : Type} (ops : List Operation)
    (exec : Nat → Except String R) : TxResult R :=
  if ops.isEmpty then
    ⟨.error "Transaction operations must be a non-empty array", false, false⟩
  else
    match txLoop exec ops 0 with
    | .ok rs => ⟨.ok rs, true, false⟩
    | .error m => ⟨.error m, false, true⟩

/-! ## `loginUserSecure` (fix-suggestions.js lines 222-354) -/

/-- The language of the validation regexp `/^[^\s@]+@[^\s@]+\.[^\s@]+$/`: no
whitespace anywhere, exactly one `@` with a non-empty part before it, and a
`.` inside the domain with non-empty text on both sides (the character
classes admit further dots, so an existential split suffices). -/
def emailRegexTest (s : String) : Bool :=
  let l := s.data
  (!l.any (fun c => isJsWs c)) &&
  (l.count '@' == 1) &&
  (!(l.takeWhile (fun c => c != '@')).isEmpty) &&
  (let dom := (l.dropWhile (fun c => c != '@')).drop 1
   (List.range dom.length).any (fun i =>
     decide (0 < i) && decide (i + 1 < dom.length) && (dom.getD i ' ' == '.')))

/-- String length of a string value (used only under the `isStr` guard). -/
def JsLite.strLen : JsLite → Nat
  | .vstr s => s.length
  | _ => 0

/-- The underlying string of a string value (used only under `isStr`). -/
def JsLite.asStr : JsLite → String
  | .vstr s => s
  | _ => ""

/-- The parsed JSON body of a login response.  `nonObj` is any body failing
`!data || typeof data !== 'object'`.  `token = some s` means `data.token` is
the string `s` (with `none` for an absent or non-string token, which fails
the token check exactly as `some ""` does); `user = some u` means `data.user`
is a truthy object `u`, `none` anything failing that check. -/
inductive LoginData (U : Type) where
  | nonObj
  | obj (token : Option String) (user : Option U) (expiresAt : Option Nat)

/-- An HTTP response to the login `fetch`: status line, whether the
`content-type` header includes `application/json`, and the
`response.json()` outcome (a parse failure carries the thrown error's name
and message). -/
structure LoginResp (U : Type) where
  status : Nat
  statusText : String
  contentTypeJson : Bool
  json : Except (String × String) (LoginData U)

/-- Outcome of one `await fetch('/api/login', ...)`: a rejection (error name
and message — e.g. `TypeError` for network failures, `AbortError` for the
10s timeout) or a response. -/
inductive LoginOutcome (U : Type) where
  | fetchThrow (name msg : String)
  | resp (r : LoginResp U)

/-- The status dispatch for non-OK login responses (lines 260-270). -/
def loginHttpErrMsg (status : Nat) (statusText : String) : String :=
  if status == 401 then "Invalid email or password"
  else if status == 429 then "Too many login attempts. Please try again later"
  else if 500 ≤ status then "Server error. Please try again later"
  else "Login failed: " ++ statusText

/-- `data.token.split('.').length === 3` (a basic JWT shape check). -/
def tokenPartsOk (t : String) : Bool :=
  t.data.count '.' == 2

/-- One iteration's `try` body (lines 242-318): HTTP status dispatch,
content-type check, response structure checks and token format check, in
source order.  Success carries the token and user of the return value; a
failure carries the thrown error's name and message (`new Error` has name
`Error`).  The `localStorage` writes are wrapped in their own `try`/`catch`
and never throw out. -/
def loginAttempt {U : Type} (out : LoginOutcome U) :
    Except (String × String) (String × U) :=
  match out with
  | .fetchThrow name msg => .error (name, msg)
  | .resp r =>
    if !(respOk r.status) then .error ("Error", loginHttpErrMsg r.status r.statusText)
    else if !r.contentTypeJson then .error ("Error", "Invalid response format from server")
    else
      match r.json with
      | .error (n, m) => .error (n, m)
      | .ok .nonObj => .error ("Error", "Invalid response data")
      | .ok (.obj token user _) =>
        match token with
        | none => .error ("Error", "Authentication token not received")
        | some t =>
          if t == "" then .error ("Error", "Authentication token not received")
          else
            match user with
            | none => .error ("Error", "User information not received")
            | some u =>
              if !(tokenPartsOk t) then
                .error ("Error", "Invalid authentication token format")
              else .ok (t, u)

/-- The don't-retry test of the catch block (lines 331-337): authentication /
input errors, or a `TypeError` mentioning `format`. -/
def loginNoRetry (name msg : String) : Bool :=
  containsSubStr "Invalid email or password" msg || containsSubStr "email" msg ||
  containsSubStr "password" msg ||
  (name == "TypeError" && containsSubStr "format" msg)

/-- The rate-limiting don't-retry test (lines 339-342). -/
def loginRateLimited (msg : String) : Bool :=
  containsSubStr "Too many login attempts" msg

/-- The backoff before retrying after attempt `attempt`:
`Math.min(1000 * Math.pow(2, attempt - 1), 5000)` (line 346). -/
def loginDelay (attempt : Nat) : Nat :=
  min (1000 * 2 ^ (attempt - 1)) 5000

/-- `lastError?.message || 'Login failed after multiple attempts'`: an empty
message is falsy, so it falls back to the default (line 353). -/
def lastErrOr (m : String) : String :=
  if m == "" then "Login failed after multiple attempts" else m

/-- Outcome of `loginUserSecure`: settled result, number of fetch attempts
made, and the backoff delays awaited between consecutive attempts. -/
structure LoginRun (U : Type) where
  result : Except String (String × U)
  fetches : Nat
  delays : List Nat

/-- The retry loop of `loginUserSecure` (lines 241-350).  `oracle a` is the
outcome of attempt `a` (attempts are numbered from 1 as in the source);
`fuel` is `maxRetries - attempt + 1`, the number of iterations still
allowed, so `fuel = 0` is the failing `for` guard (then `lastError` is still
`undefined` and the final `throw` uses the fallback message). -/
def loginStep {U : Type} (a fuel : Nat) (next : LoginRun U) :
    Except (String × String) (String × U) → LoginRun U
  | .ok v => ⟨.ok v, 1, []⟩
  | .error (name, msg) =>
    if loginNoRetry name msg then ⟨.error (lastErrOr msg), 1, []⟩
    else if loginRateLimited msg then ⟨.error (lastErrOr msg), 1, []⟩
    else if fuel = 0 then ⟨.error (lastErrOr msg), 1, []⟩
    else ⟨next.result, next.fetches + 1, loginDelay a :: next.delays⟩

/-- The loop itself: attempt `a` settles, or the catch block decides between
rethrow (don't-retry / rate-limit / retries exhausted) and backoff-and-retry. -/
def loginLoop {U : Type} (oracle : Nat → LoginOutcome U) :
    Nat → Nat → LoginRun U
  | 0, _ => ⟨.error "Login failed after multiple attempts", 0, []⟩
  | fuel + 1, a => loginStep a fuel (loginLoop oracle fuel (a + 1)) (loginAttempt (oracle a))

/-- `loginUserSecure(email, password)` (lines 222-354): input validation in
source order, then the retry loop with `maxRetries = 3`.  The request body
(`email.toLowerCase().trim()`) only affects what the server sees and is
absorbed into the oracle. -/
def loginUserSecure {U : Type} (email password : JsLite)
    (oracle : Nat → LoginOutcome U) : LoginRun U :=
  if email.falsy || !email.isStr then
    ⟨.error "Valid email address is required", 0, []⟩
  else if password.falsy || !password.isStr || decide (password.strLen < 8) then
    ⟨.error "Password must be at least 8 characters long", 0, []⟩
  else if !(emailRegexTest email.asStr) then
    ⟨.error "Please enter a valid email address", 0, []⟩
  else loginLoop oracle 3 1

/-- The HTTP status of an attempt outcome, when a response arrived. -/
def outcomeStatus {U : Type} : LoginOutcome U → Option Nat
  | .fetchThrow _ _ => none
  | .resp r => some r.status

/-! ## `ApiClient` (fix-suggestions.js lines 368-569)

The client's `request` method checks the circuit breaker and validates the
endpoint, then runs a retry loop over `fetch` outcomes.  URL construction,
the auth-token header and `handleAuthError`'s `localStorage`/event side
effects only shape the request or the browser state and are absorbed into
the per-attempt oracle. -/

/-- The `circuitBreaker` field of `ApiClient` (constructor lines 374-379). -/
structure CircuitBreaker where
  failures : Nat
  lastFailure : Option Int
  threshold : Nat
  resetTimeout : Int
deriving DecidableEq

/-- The remaining constructor fields with their `options.x || d` defaults
(`0` is falsy in JS, so these values are never zero for constructor-built
clients; in particular `maxRetries ≥ 1`). -/
structure ApiClientCfg where
  timeout : Nat := 10000
  maxRetries : Nat := 3
  retryDelay : Nat := 1000

/-- `ApiClient.isCircuitOpen` (lines 510-516).  JS computes
`Date.now() - null` as `Date.now() - 0` when no failure was recorded. -/
def isCircuitOpen (cb : CircuitBreaker) (now : Int) : Bool :=
  if cb.threshold ≤ cb.failures then
    decide (now - (cb.lastFailure.getD 0) < cb.resetTimeout)
  else false

/-- Outcome of one `await fetch(url, config)` in `request`: a rejection
(error name and message; the timeout abort surfaces as `AbortError`) or an
HTTP response with its `Retry-After` header, the `message` field of its
safely-parsed error body, and its safely-parsed success body. -/
inductive ApiOutcome where
  | fetchThrow (name msg : String)
  | resp (status : Nat) (statusText : String) (retryAfter : Option String)
      (bodyMsg : Option String) (body : Option String)

/-- `errorBody?.message || default` (an absent body, absent field or empty
message falls back to the default). -/
def msgOr (bodyMsg : Option String) (d : String) : String :=
  match bodyMsg with
  | some m => if m == "" then d else m
  | none => d

/-- The status-code dispatch of `request` for non-OK responses (lines
430-455).  The 429 arm interpolates the `Retry-After` header when that is
truthy. -/
def httpErrMsg (status : Nat) (statusText : String) (retryAfter : Option String)
    (bodyMsg : Option String) : String :=
  match status with
  | 400 => msgOr bodyMsg "Invalid request. Please check your input."
  | 401 => "Authentication required. Please log in again."
  | 403 => "You do not have permission to perform this action."
  | 404 => "The requested resource was not found."
  | 409 => msgOr bodyMsg "Conflict. The resource already exists or is in use."
  | 422 => msgOr bodyMsg "Validation failed. Please check your input."
  | 429 =>
    match retryAfter with
    | some ra =>
      if ra == "" then "Too many requests. Please try again later."
      else "Too many requests. Please try again after " ++ ra ++ " seconds."
    | none => "Too many requests. Please try again later."
  | 500 => "Server error. Please try again later."
  | 502 => "Service temporarily unavailable. Please try again later."
  | 503 => "Service temporarily unavailable. Please try again later."
  | 504 => "Service temporarily unavailable. Please try again later."
  | _ => "Request failed: " ++ toString status ++ " " ++ statusText

/-- `ApiClient.isServerError` (lines 518-522), on the thrown error's name and
message. -/
def isServerErrorE (name msg : String) : Bool :=
  containsSubStr "Server error" msg ||
  containsSubStr "Service temporarily unavailable" msg ||
  name == "AbortError"

/-- `ApiClient.shouldNotRetry` (lines 524-531). -/
def shouldNotRetryE (msg : String) : Bool :=
  containsSubStr "Invalid request" msg || containsSubStr "Authentication required" msg ||
  containsSubStr "permission" msg || containsSubStr "not found" msg ||
  containsSubStr "Validation failed" msg || containsSubStr "No internet connection" msg

/-- The circuit-breaker bookkeeping of the catch block (lines 470-474):
server errors bump `failures` and stamp `lastFailure`. -/
def trackFailure (cb : CircuitBreaker) (now : Int) (name msg : String) :
    CircuitBreaker :=
  if isServerErrorE name msg then
    { cb with failures := cb.failures + 1, lastFailure := some now }
  else cb

/-- Outcome of `ApiClient.request`: the settled value (an OK response's
safely-parsed body, or the thrown error's message), the number of fetch
attempts made, and the circuit breaker state afterwards. -/
structure RequestRun where
  result : Except String (Option String)
  fetches : Nat
  cb : CircuitBreaker

/-- One iteration of the `request` retry loop after the fetch settled
(lines 423-494): OK responses reset the breaker and return the parsed body;
otherwise the thrown error is tracked, then either rethrown (don't-retry, or
`attempt < maxRetries` fails, i.e. `fuel = 0`) or retried after the backoff
delay.  `next` is the rest of the loop, continued from the updated breaker. -/
def reqStep (now : Int) (fuel : Nat) (next : CircuitBreaker → RequestRun)
    (cb : CircuitBreaker) : ApiOutcome → RequestRun
  | .fetchThrow name msg =>
    let cb2 := trackFailure cb now name msg
    if shouldNotRetryE msg then ⟨.error msg, 1, cb2⟩
    else if fuel = 0 then ⟨.error msg, 1, cb2⟩
    else
      let r := next cb2
      ⟨r.result, r.fetches + 1, r.cb⟩
  | .resp status statusText retryAfter bodyMsg body =>
    if respOk status then
      ⟨.ok body, 1, { cb with failures := 0, lastFailure := none }⟩
    else
      let msg := httpErrMsg status statusText retryAfter bodyMsg
      let cb2 := trackFailure cb now "Error" msg
      if shouldNotRetryE msg then ⟨.error msg, 1, cb2⟩
      else if fuel = 0 then ⟨.error msg, 1, cb2⟩
      else
        let r := next cb2
        ⟨r.result, r.fetches + 1, r.cb⟩

/-- The `request` retry loop (lines 396-495).  Each iteration first checks
`navigator.onLine`; the offline error is thrown before any fetch, is not a
server error, and matches `shouldNotRetry`, so it ends the loop with no
fetch made.  The base case is the loop falling through with `lastError`
still `undefined` (unreachable for constructor-built clients, whose
`maxRetries` is at least 1); JS would `throw undefined` there. -/
def reqLoop (oracle : Nat → ApiOutcome) (now : Int) (online : Bool) :
    Nat → Nat → CircuitBreaker → RequestRun
  | 0, _, cb => ⟨.error "undefined", 0, cb⟩
  | fuel + 1, a, cb =>
    if !online then
      ⟨.error "No internet connection. Please check your network and try again.", 0, cb⟩
    else reqStep now fuel (fun cb2 => reqLoop oracle now online fuel (a + 1) cb2)
      cb (oracle a)

/-- `ApiClient.request` (lines 382-498): circuit-breaker gate, endpoint
validation, then the retry loop. -/
def request (cfg : ApiClientCfg) (cb : CircuitBreaker) (now : Int)
    (online : Bool) (endpoint : JsLite) (oracle : Nat → ApiOutcome) : RequestRun :=
  if isCircuitOpen cb now then
    ⟨.error "Service temporarily unavailable. Please try again later.", 0, cb⟩
  else if endpoint.falsy || !endpoint.isStr then
    ⟨.error "Valid endpoint is required", 0, cb⟩
  else reqLoop oracle now online cfg.maxRetries 1 cb

/-! ## `processTextRobust` (edge-case-scenarios.js lines 545-646)

The cleaning pipeline step by step.  Unicode NFC normalization
(`result.normalize('NFC')`, guarded by `handleUnicode`, lines 613-620) is a
host string builtin; like `fetch` and `Date.now`, it is passed in as an
explicit argument `nfc` of the pipeline.  NFC is not length-preserving: the
Unicode standard (UAX #15) documents a maximum expansion factor of 3 (e.g.
the composition-excluded U+0958 normalizes to the two characters
U+0915 U+093C, and U+1D160 to three), so the length theorem assumes only
`(nfc l).length ≤ 3 * l.length` of the argument.  The source wraps the call
in `try`/`catch` and keeps the text unchanged on a throw, so a total `nfc`
is faithful. -/

/-- The options object of `processTextRobust` with its defaults. -/
structure PTROptions where
  maxLength : Nat := 1000000
  normalizeWhitespace : Bool := true
  stripHTML : Bool := false
  preserveLineBreaks : Bool := true
  handleUnicode : Bool := true
  removeControlChars : Bool := true
  trimText : Bool := true

/-- The control characters removed by `removeControlChars`:
`[\x00-\x08\x0B\x0C\x0E-\x1F\x7F]` (tabs and newlines survive). -/
def isCtrlToRemove (c : Char) : Bool :=
  c.toNat ≤ 0x08 || c.toNat == 0x0B || c.toNat == 0x0C ||
  (0x0E ≤ c.toNat && c.toNat ≤ 0x1F) || c.toNat == 0x7F

/-- `result.replace(/[\x00-...]/g, '')`. -/
def removeCtrl (l : List Char) : List Char :=
  l.filter (fun c => !isCtrlToRemove c)

mutual

/-- `result.replace(/<[^>]*>/g, '')`: each `<` opens a match that runs to the
next `>` (the greedy `[^>]*` cannot cross one); a `<` with no later `>`
matches nothing, and since no `>` remains, nothing after it can match either,
so the rest of the text is kept as is.  `stripTagsTag orig l` scans `l` (a
suffix of `orig`) for the closing `>` of a `<` whose tail was `orig`. -/
def stripTags : List Char → List Char
  | [] => []
  | c :: rest =>
    if c = '<' then stripTagsTag rest rest
    else c :: stripTags rest
termination_by l => (l.length, 0)

def stripTagsTag (orig : List Char) : List Char → List Char
  | [] => '<' :: orig
  | c :: rest =>
    if c = '>' then stripTags rest
    else stripTagsTag orig rest
termination_by l => (l.length, 1)

end

/-- `s.replace(/pat/g, rep)` for a literal pattern given as a list (the
patterns used here are all non-empty). -/
def repAll (pat rep l : List Char) : List Char :=
  match pat with
  | [] => l
  | p :: ps => replaceAllL p ps rep l

/-- The entity decodes of the `stripHTML` branch, applied sequentially in
source order: `&amp;` `&lt;` `&gt;` `&quot;` `&#39;` `&nbsp;`. -/
def decodeEntities (l : List Char) : List Char :=
  repAll "&nbsp;".data [' ']
    (repAll "&#39;".data [Char.ofNat 39]
      (repAll "&quot;".data ['"']
        (repAll "&gt;".data ['>']
          (repAll "&lt;".data ['<']
            (repAll "&amp;".data ['&'] l)))))

/-- The whole `stripHTML` branch: tag removal, then entity decoding. -/
def stripHTMLStep (l : List Char) : List Char :=
  decodeEntities (stripTags l)

/-- The class `[\s\u00A0\u1680\u2000-\u200B\u202F\u205F\u3000]`: JS
whitespace plus the zero-width space U+200B (the rest duplicates `\s`). -/
def isWsPTR (c : Char) : Bool :=
  isJsWs c || c == Char.ofNat 0x200B

/-- `result.replace(/[\s...]/g, ' ')` (each matched character is one UTF-16
unit, so this is a map). -/
def wsToSpace (l : List Char) : List Char :=
  l.map (fun c => if isWsPTR c then ' ' else c)

/-- `result.replace(/\r\n/g, '\n')`: one left-to-right pass over CRLF pairs. -/
def crlfToLf : List Char → List Char
  | [] => []
  | [c] => [c]
  | c :: c2 :: rest =>
    if c = '\r' ∧ c2 = '\n' then '\n' :: crlfToLf rest
    else c :: crlfToLf (c2 :: rest)

/-- Line-ending normalization: CRLF to LF, then the remaining CRs to LF. -/
def normalizeLineEndings (l : List Char) : List Char :=
  (crlfToLf l).map (fun c => if c == '\r' then '\n' else c)

/-- `result.replace(/\n/g, ' ')` (the `!preserveLineBreaks` branch). -/
def newlinesToSpaces (l : List Char) : List Char :=
  l.map (fun c => if c == '\n' then ' ' else c)

/-- `result.replace(/ {2,}/g, ' ')`: collapse runs of two or more spaces. -/
def collapseSpaces : List Char → List Char
  | [] => []
  | [c] => [c]
  | c :: c2 :: rest =>
    if c = ' ' ∧ c2 = ' ' then collapseSpaces (c2 :: rest)
    else c :: collapseSpaces (c2 :: rest)

/-- The RTL test `/[\u0590-\u05FF\u0600-\u06FF\u0750-\u077F]/`. -/
def isRTL (c : Char) : Bool :=
  (0x590 ≤ c.toNat && c.toNat ≤ 0x5FF) ||
  (0x600 ≤ c.toNat && c.toNat ≤ 0x6FF) ||
  (0x750 ≤ c.toNat && c.toNat ≤ 0x77F)

/-- The bidirectional-text step: text containing RTL characters is wrapped in
U+202B (RLE) and U+202C (PDF) markers, adding two characters. -/
def rtlWrap (l : List Char) : List Char :=
  if l.any isRTL then Char.ofNat 0x202B :: (l ++ [Char.ofNat 0x202C]) else l

/-- The final null-byte sweep: `result.replace(/\0/g, '')` under
`result.includes('\0')`. -/
def removeNullBytes (l : List Char) : List Char :=
  if l.any (fun c => c == Char.ofNat 0) then l.filter (fun c => c != Char.ofNat 0)
  else l

/-- The truncation step (lines 570-573). -/
def ptrTruncate (o : PTROptions) (l : List Char) : List Char :=
  if l.length > o.maxLength then l.take o.maxLength else l

/-- The `removeControlChars` step. -/
def ptrCtrl (o : PTROptions) (l : List Char) : List Char :=
  if o.removeControlChars then removeCtrl l else l

/-- The `stripHTML` step. -/
def ptrHtml (o : PTROptions) (l : List Char) : List Char :=
  if o.stripHTML then stripHTMLStep l else l

/-- Line-ending handling inside `normalizeWhitespace` (lines 602-606). -/
def ptrLines (o : PTROptions) (l : List Char) : List Char :=
  let w2 := normalizeLineEndings l
  if !o.preserveLineBreaks then newlinesToSpaces w2 else w2

/-- The whole `normalizeWhitespace` branch (lines 597-610). -/
def ptrWs (o : PTROptions) (l : List Char) : List Char :=
  if o.normalizeWhitespace then collapseSpaces (ptrLines o (wsToSpace l)) else l

/-- The `trimText` step. -/
def ptrTrim (o : PTROptions) (l : List Char) : List Char :=
  if o.trimText then jsTrimL l else l

/-- The final validation and null-byte sweep (lines 634-645). -/
def ptrFinal (l : List Char) : List Char :=
  if l.isEmpty then [] else removeNullBytes l

/-- The `handleUnicode` step (lines 613-620): apply the host `nfc`
normalization when enabled (`typeof result.normalize === 'function'` holds
in any modern runtime; a thrown normalization error only logs and keeps the
text unchanged, so a total `nfc` is faithful). -/
def ptrNfc (nfc : List Char → List Char) (o : PTROptions) (l : List Char) :
    List Char :=
  if o.handleUnicode then nfc l else l

/-- `processTextRobust` on the characters of the input (lines 545-646), as
the pipeline of the steps above, with the host NFC normalization passed in
as `nfc` (between the whitespace and RTL steps, as in the source). -/
def processTextCore (nfc : List Char → List Char) (l : List Char)
    (o : PTROptions) : List Char :=
  if l.isEmpty then []
  else
    ptrFinal (ptrTrim o (rtlWrap (ptrNfc nfc o
      (ptrWs o (ptrHtml o (ptrCtrl o (ptrTruncate o l)))))))

/-- `processTextRobust(text, options)`; `none` is a null/undefined `text`,
`nfc` the host `String.prototype.normalize('NFC')`. -/
def processTextRobust (nfc : List Char → List Char) (text : Option String)
    (o : PTROptions) : String :=
  match text with
  | none => ""
  | some s => ⟨processTextCore nfc s.data o⟩

/-! ## `sanitizeFilePathRobust` (edge-case-scenarios.js lines 662-757)

As above, `path.normalize('NFC')` is modelled as the identity, and
`Char.toUpper` stands for the regexp's `/i` flag on the ASCII reserved
names. -/

/-- The options object of `sanitizeFilePathRobust` with its defaults; `os`
defaults to `process.platform` in Node and `'unknown'` elsewhere. -/
structure SanOptions where
  maxLength : Nat := 260
  allowRelativePaths : Bool := false
  preserveExtension : Bool := true
  osName : String := "unknown"

/-- `path.replace(/\.\.\/|\.\.\\|\.\.\//g, '')`: a single left-to-right
pass; at each position the alternation tries `../` then `..\` (the third
alternative repeats the first), and a match is removed and not rescanned. -/
def removeTraversal : List Char → List Char
  | '.' :: '.' :: '/' :: rest => removeTraversal rest
  | '.' :: '.' :: '\\' :: rest => removeTraversal rest
  | c :: cs => c :: removeTraversal cs
  | [] => []

/-- `path.replace(/[<>:"|?*\x00-\x1f]/g, '_')`. -/
def dangerousReplace (l : List Char) : List Char :=
  l.map (fun c =>
    if c == '<' || c == '>' || c == ':' || c == '"' || c == '|' || c == '?' ||
        c == '*' || c.toNat ≤ 0x1f then '_'
    else c)

/-- `path.split('/')` (JS semantics, keeping empty parts). -/
def splitOnSlash : List Char → List (List Char)
  | [] => [[]]
  | c :: r =>
    if c = '/' then [] :: splitOnSlash r
    else
      match splitOnSlash r with
      | [] => [[c]]
      | h :: t => (c :: h) :: t

/-- `/^(CON|PRN|AUX|NUL|COM[1-9]|LPT[1-9])(\.|$)/i` on the file name: one of
the reserved names (case-insensitively), followed by a dot or the end. -/
def reservedTest (fileName : List Char) : Bool :=
  let u := fileName.map Char.toUpper
  let check := fun (nm : List Char) =>
    startsWithL nm u && (u.length == nm.length || u.getD nm.length ' ' == '.')
  let checkNum := fun (c1 c2 c3 : Char) =>
    match u with
    | d1 :: d2 :: d3 :: d :: rest =>
      d1 == c1 && d2 == c2 && d3 == c3 && decide ('1' ≤ d) && decide (d ≤ '9') &&
        (rest.isEmpty || rest.headD ' ' == '.')
    | _ => false
  check "CON".data || check "PRN".data || check "AUX".data || check "NUL".data ||
  checkNum 'C' 'O' 'M' || checkNum 'L' 'P' 'T'

/-- `path.lastIndexOf('.')`, as an optional index. -/
def lastDotIdx (l : List Char) : Option Nat :=
  ((List.range l.length).filter (fun i => l.getD i ' ' == '.')).getLast?

/-- The long-path truncation (lines 709-722): with `preserveExtension` and a
dot at a positive index, keep the extension and cut the name to what is left
of `maxLength` (JS `substring` clamps the negative case to 0, as truncated
subtraction does); otherwise cut to `maxLength`. -/
def sanTruncate (maxLength : Nat) (preserveExt : Bool) (l : List Char) : List Char :=
  if l.length > maxLength then
    if preserveExt then
      match lastDotIdx l with
      | some i =>
        if 0 < i then (l.take i).take (maxLength - (l.drop i).length) ++ l.drop i
        else l.take maxLength
      | none => l.take maxLength
    else l.take maxLength
  else l

/-- `path.replace(/^[\s.]+|[\s.]+$/g, '')`: strip whitespace and dots from
both ends. -/
def stripDotsWs (l : List Char) : List Char :=
  ((l.dropWhile (fun c => isJsWs c || c == '.')).reverse.dropWhile
    (fun c => isJsWs c || c == '.')).reverse

/-- The OS-specific switch (lines 740-754). -/
def sanOsStep (osName : String) (l : List Char) : List Char :=
  if osName == "win32" then
    (l.reverse.dropWhile (fun c => isJsWs c || c == '.')).reverse
  else if osName == "darwin" then
    l.map (fun c => if c == ':' then '_' else c)
  else l

/-- `sanitizeFilePathRobust(filePath, options)` (lines 662-757); `none` is a
null/undefined `filePath`. -/
def sanitizeFilePathRobust (filePath : Option String) (o : SanOptions) : String :=
  match filePath with
  | none => ""
  | some s =>
    let path0 := s.data
    if (jsTrimL path0).isEmpty then ""
    else
      let p1 := path0.map (fun c => if c == '\\' then '/' else c)
      let p2 :=
        if containsSubL "../".data p1 || containsSubL "..\\".data p1 then
          if !o.allowRelativePaths then removeTraversal p1 else p1
        else p1
      let p3 := dangerousReplace p2
      let parts := splitOnSlash p3
      let fileName := parts.getLastD []
      let p4 :=
        if reservedTest fileName then
          List.intercalate "/".data (parts.dropLast ++ ['_' :: fileName])
        else p3
      let p5 := sanTruncate o.maxLength o.preserveExtension p4
      let p6 := stripDotsWs p5
      if p6.isEmpty then "unnamed_file"
      else ⟨sanOsStep o.osName p6⟩

/-! ## Theorems -/

/-- Claim C9: `BlogApiService.getPosts` and `BlogApiService.getPost` never
throw: for every outcome of the underlying fetch (network error, non-OK HTTP
status, unparsable JSON) each returns an `ApiResponse` in which `success =
true` implies `errors` is empty, and `success = false` implies `data` is null
and `errors` contains exactly one message.  (Both functions are total Lean
functions on all fetch events, which is the embedded form of "never throw".) -/
theorem blogApi_response_invariant :
    ∀ (P : Type) (ev1 : FetchEv (Option (List P))) (ev2 : FetchEv (Option P)),
      ((getPosts ev1).success = true → (getPosts ev1).errors = []) ∧
      ((getPosts ev1).success = false →
        (getPosts ev1).data = none ∧ (getPosts ev1).errors.length = 1) ∧
      ((getPost ev2).success = true → (getPost ev2).errors = []) ∧
      ((getPost ev2).success = false →
        (getPost ev2).data = none ∧ (getPost ev2).errors.length = 1) := by
  intro P ev1 ev2
  refine ⟨?_, ?_, ?_, ?_⟩ <;>
    · cases ev1 <;> cases ev2 <;>
        simp only [getPosts, getPost] <;>
        (try split) <;> (try split) <;> simp_all

/-- The default options: invalid entries are skipped. -/
theorem defaultAvg_skipInvalid : defaultAvgOptions.skipInvalid = true := rfl

/-- The default options: `null` entries are not treated as zero. -/
theorem defaultAvg_treatNull : defaultAvgOptions.treatNullAsZero = false := rfl

/-- The default options: two decimal places. -/
theorem defaultAvg_precision : defaultAvgOptions.precision = 2 := rfl

/-- On a list of plain finite numbers the collection loop of
`calculateAverageRobust` keeps every element, in order. -/
theorem collectNums_map_vnum (l : List ℚ) :
    collectNums defaultAvgOptions (l.map .vnum) = some l := by
  induction l with
  | nil => simp [collectNums]
  | cons q rest ih => simp [collectNums, ih]

/-- On a list with no valid numeric value (only nulls, `NaN`s and plain
objects) the collection loop of `calculateAverageRobust` collects nothing. -/
theorem collectNums_no_valid (l : List AvgVal)
    (h : ∀ v ∈ l, v = .vnull ∨ v = .vnan ∨ v = .vobj) :
    collectNums defaultAvgOptions l = some [] := by
  induction l with
  | nil => simp [collectNums]
  | cons v rest ih =>
    have hv := h v (by simp)
    have hrest : ∀ w ∈ rest, w = AvgVal.vnull ∨ w = .vnan ∨ w = .vobj :=
      fun w hw => h w (by simp [hw])
    rcases hv with hv | hv | hv <;> subst hv <;>
      simp [collectNums, defaultAvg_skipInvalid, defaultAvg_treatNull, ih hrest]

/-- Claim C10: for every non-empty array whose elements are all finite
numbers, `calculateAverageRobust` with default options returns
`Number((sum / length).toFixed(precision))` — the arithmetic mean rounded to
2 decimal places (in the rational embedding every number and every running
sum is finite); and for null input, a non-array non-numeric input (`NaN`,
booleans, plain objects), an empty array, or an array containing no valid
numeric value, it returns null rather than `NaN` or throwing. -/
theorem calcAvg_spec :
    (∀ l : List ℚ, l ≠ [] →
      calcAvg defaultAvgOptions (.varr (l.map .vnum)) =
        some (jsToFixed (l.sum / (l.length : ℚ)) 2)) ∧
    calcAvg defaultAvgOptions .vnull = none ∧
    (∀ b, calcAvg defaultAvgOptions (.vbool b) = none) ∧
    calcAvg defaultAvgOptions .vobj = none ∧
    calcAvg defaultAvgOptions .vnan = none ∧
    calcAvg defaultAvgOptions (.varr []) = none ∧
    (∀ l : List AvgVal, (∀ v ∈ l, v = .vnull ∨ v = .vnan ∨ v = .vobj) →
      calcAvg defaultAvgOptions (.varr l) = none) := by
  refine ⟨?_, by simp [calcAvg], fun b => by simp [calcAvg],
    by simp [calcAvg], by simp [calcAvg], by simp [calcAvg], ?_⟩
  · intro l hl
    obtain ⟨a, t, rfl⟩ : ∃ a t, l = a :: t := by
      cases l with
      | nil => exact absurd rfl hl
      | cons a t => exact ⟨a, t, rfl⟩
    have hc := collectNums_map_vnum (a :: t)
    simp only [List.map] at hc
    simp [calcAvg, hc, defaultAvg_precision]
  · intro l h
    cases l with
    | nil => simp [calcAvg]
    | cons v rest =>
      simp [calcAvg, collectNums_no_valid _ h]

/-- Witness for C10: the mean of `[1, 2]` with default options is `1.5`. -/
theorem calcAvg_spec_witness :
    ([(1 : ℚ), 2] ≠ ([] : List ℚ)) ∧
      calcAvg defaultAvgOptions (.varr ([(1 : ℚ), 2].map .vnum)) = some (3 / 2) := by
  refine ⟨by decide, ?_⟩
  rw [calcAvg_spec.1 [1, 2] (by decide)]
  norm_num [jsToFixed]

/-- Witness for C9 at a concrete fetch outcome (a network error while getting
posts, a 404 while getting a single post). -/
theorem blogApi_response_invariant_witness :
    (getPosts (P := Nat) (.thrown true "network down")).data = none ∧
    (getPosts (P := Nat) (.thrown true "network down")).errors.length = 1 ∧
    (getPost (P := Nat) (.resp 404 "Not Found" (.ok none))).errors.length = 1 := by
  refine ⟨?_, ?_, ?_⟩
  · exact ((blogApi_response_invariant Nat (.thrown true "network down")
      (.resp 404 "Not Found" (.ok none))).2.1 rfl).1
  · exact ((blogApi_response_invariant Nat (.thrown true "network down")
      (.resp 404 "Not Found" (.ok none))).2.1 rfl).2
  · exact ((blogApi_response_invariant Nat (.thrown true "network down")
      (.resp 404 "Not Found" (.ok none))).2.2.2 rfl).2

/-- Inversion for `Except.map` landing in `.ok`. -/
theorem exceptMap_ok {ε α β : Type} (f : α → β) (x : Except ε α) (y : β)
    (h : x.map f = .ok y) : ∃ a, x = .ok a ∧ f a = y := by
  cases x with
  | error e => simp [Except.map] at h
  | ok a => exact ⟨a, rfl, by simpa [Except.map] using h⟩

/-- The transaction loop succeeds exactly when every remaining operation is
well-formed and its execute succeeds. -/
theorem txLoop_ok_iff {R : Type} (exec : Nat → Except String R) :
    ∀ (ops : List Operation) (i : Nat),
      (∃ rs, txLoop exec ops i = .ok rs) ↔
        ∀ j (hj : j < ops.length),
          opInvalid (ops.get ⟨j, hj⟩) = false ∧ ∃ r, exec (i + j) = .ok r := by
  intro ops
  induction ops with
  | nil => intro i; simp [txLoop]
  | cons op rest ih =>
    intro i
    by_cases hop : opInvalid op
    · simp only [txLoop, hop, if_true]
      constructor
      · rintro ⟨rs, h⟩; cases h
      · intro h
        have := (h 0 (by simp)).1
        simp [List.get] at this
        exact absurd this (by simp [hop])
    · simp only [txLoop, hop, if_false, Bool.not_eq_true]
      cases hex : exec i with
      | error m =>
        constructor
        · rintro ⟨rs, h⟩; simp [hex] at h
        · intro h
          obtain ⟨r, hr⟩ := (h 0 (by simp)).2
          rw [Nat.add_zero] at hr
          rw [hex] at hr; cases hr
      | ok r =>
        constructor
        · rintro ⟨rs, h⟩
          simp only [hex] at h
          obtain ⟨rs', hrs', -⟩ := exceptMap_ok _ _ _ h
          intro j hj
          match j with
          | 0 => exact ⟨by simpa using hop, r, by simpa using hex⟩
          | j + 1 =>
            have := ((ih (i + 1)).mp ⟨rs', hrs'⟩) j (by simpa using hj)
            simpa [Nat.add_assoc, Nat.add_comm 1 j] using this
        · intro h
          obtain ⟨rs', hrs'⟩ := (ih (i + 1)).mpr (fun j hj => by
            have := h (j + 1) (by simpa using hj)
            simpa [Nat.add_assoc, Nat.add_comm 1 j] using this)
          exact ⟨r :: rs', by simp [hex, hrs', Except.map]⟩

/-- When the transaction loop succeeds, the collected rows are the execute
results of the operations, in order. -/
theorem txLoop_ok_get {R : Type} (exec : Nat → Except String R) :
    ∀ (ops : List Operation) (i : Nat) (rs : List R),
      txLoop exec ops i = .ok rs →
        rs.length = ops.length ∧
          ∀ j (hj : j < rs.length), exec (i + j) = .ok (rs.get ⟨j, hj⟩) := by
  intro ops
  induction ops with
  | nil =>
    intro i rs h
    simp [txLoop] at h
    subst h
    exact ⟨rfl, fun j hj => absurd hj (by simp)⟩
  | cons op rest ih =>
    intro i rs h
    by_cases hop : opInvalid op
    · simp [txLoop, hop] at h
    · simp only [txLoop, hop, if_false, Bool.not_eq_true] at h
      cases hex : exec i with
      | error m => simp [hex] at h
      | ok r =>
        simp only [hex] at h
        obtain ⟨rs', hrs', hcons⟩ := exceptMap_ok _ _ _ h
        subst hcons
        obtain ⟨hlen, hget⟩ := ih (i + 1) rs' hrs'
        refine ⟨by simp [hlen], fun j hj => ?_⟩
        match j with
        | 0 => simpa using hex
        | j + 1 =>
          have := hget j (by simpa using hj)
          simpa [Nat.add_assoc, Nat.add_comm 1 j] using this

/-- Claim C2: for every non-empty list of operations, `DatabaseService.transaction`
is atomic: it commits exactly when every operation is well-formed and its
execute succeeds; any execute failure or missing `query`/`params` rolls the
transaction back and rethrows an error; and it returns normally exactly when
it committed, in which case the returned list holds each operation's execute
result in operation order. -/
theorem transaction_atomic {R : Type} (ops : List Operation)
    (exec : Nat → Except String R) (hne : ops ≠ []) :
    ((transaction ops exec).committed = true ↔
      ∀ i (hi : i < ops.length),
        opInvalid (ops.get ⟨i, hi⟩) = false ∧ ∃ r, exec i = .ok r) ∧
    (∀ m, (transaction ops exec).result = .error m →
      (transaction ops exec).rolledBack = true ∧
        (transaction ops exec).committed = false) ∧
    ((transaction ops exec).committed = true ↔
      ∃ rs, (transaction ops exec).result = .ok rs) ∧
    (∀ rs, (transaction ops exec).result = .ok rs →
      rs.length = ops.length ∧
        ∀ i (hi : i < rs.length), exec i = .ok (rs.get ⟨i, hi⟩)) := by
  have hempty : ops.isEmpty = false := by
    cases ops with
    | nil => exact absurd rfl hne
    | cons a t => rfl
  refine ⟨?_, ?_, ?_, ?_⟩
  · constructor
    · intro hc
      rcases hloop : txLoop exec ops 0 with m | rs
      · simp [transaction, hempty, hloop] at hc
      · have := (txLoop_ok_iff exec ops 0).mp ⟨rs, hloop⟩
        simpa using this
    · intro h
      obtain ⟨rs, hloop⟩ := (txLoop_ok_iff exec ops 0).mpr (by simpa using h)
      simp [transaction, hempty, hloop]
  · intro m hm
    rcases hloop : txLoop exec ops 0 with m' | rs <;>
      simp [transaction, hempty, hloop] at hm ⊢
  · rcases hloop : txLoop exec ops 0 with m' | rs <;>
      simp [transaction, hempty, hloop]
  · intro rs hrs
    rcases hloop : txLoop exec ops 0 with m' | rs' <;>
      simp [transaction, hempty, hloop] at hrs
    subst hrs
    simpa using txLoop_ok_get exec ops 0 rs' hloop

/-- Witness for C2: a single failing operation is rolled back, not
committed, and the error is rethrown. -/
theorem transaction_atomic_witness :
    ([(⟨.vstr "INSERT INTO t VALUES (?)", .varr⟩ : Operation)] ≠ []) ∧
      (transaction [(⟨.vstr "INSERT INTO t VALUES (?)", .varr⟩ : Operation)]
          (fun _ => (.error "boom" : Except String Nat))).rolledBack = true ∧
      (transaction [(⟨.vstr "INSERT INTO t VALUES (?)", .varr⟩ : Operation)]
          (fun _ => (.error "boom" : Except String Nat))).committed = false := by
  refine ⟨by simp, ?_⟩
  exact (transaction_atomic [(⟨.vstr "INSERT INTO t VALUES (?)", .varr⟩ : Operation)]
    (fun _ => (.error "boom" : Except String Nat)) (by simp)).2.1
    "Transaction failed at operation 1: boom" rfl


/-- The retry loop of `executeQuery` makes at most `fuel` further attempts. -/
theorem eqLoop_attempts_le {R : Type} (oracle : Nat → Except DbErr R) (retry : Nat) :
    ∀ (fuel a : Nat), (eqLoop oracle retry fuel a).attempts ≤ a + fuel := by
  intro fuel
  induction fuel with
  | zero => intro a; simp [eqLoop]
  | succ fuel ih =>
    intro a
    simp only [eqLoop]
    cases h : oracle a with
    | ok r => simp [eqStep]
    | error e =>
      simp only [eqStep]
      split_ifs <;> first
        | exact le_trans (ih (a + 1)) (by omega)
        | (show a + 1 ≤ a + (fuel + 1); omega)

/-- Every attempt of the retry loop that was followed by a further attempt
failed with a deadlock or a connection error. -/
theorem eqLoop_retried_only {R : Type} (oracle : Nat → Except DbErr R) (retry : Nat) :
    ∀ (fuel a k : Nat), a ≤ k →
      k + 1 < (eqLoop oracle retry fuel a).attempts →
      ∃ e, oracle k = .error e ∧
        (isDeadlockError e = true ∨ isConnectionError e = true) := by
  intro fuel
  induction fuel with
  | zero =>
    intro a k hak h
    simp [eqLoop] at h
    omega
  | succ fuel ih =>
    intro a k hak h
    simp only [eqLoop] at h
    rcases ho : oracle a with e | r
    case ok =>
      rw [ho] at h
      simp [eqStep] at h
      omega
    case error =>
      rw [ho] at h
      simp only [eqStep] at h
      split_ifs at h with hd hr hc hr2
      · rcases Nat.eq_or_lt_of_le hak with hka | hka
        · exact ⟨e, by rw [hka] at ho; exact ho, Or.inl hd⟩
        · exact ih (a + 1) k hka h
      · simp at h; omega
      · rcases Nat.eq_or_lt_of_le hak with hka | hka
        · exact ⟨e, by rw [hka] at ho; exact ho, Or.inr hc⟩
        · exact ih (a + 1) k hka h
      · simp at h; omega
      · simp at h; omega
      · simp at h; omega
      · simp at h; omega

/-- An attempt that fails with an error that is neither a deadlock nor a
connection error ends the retry loop at once, with the message chosen by the
constraint / timeout / generic dispatch. -/
theorem eqLoop_stops {R : Type} (oracle : Nat → Except DbErr R) (retry : Nat) :
    ∀ (fuel a k : Nat) (e : DbErr), a ≤ k →
      k < (eqLoop oracle retry fuel a).attempts →
      oracle k = .error e →
      isDeadlockError e = false → isConnectionError e = false →
      (eqLoop oracle retry fuel a).attempts = k + 1 ∧
        (eqLoop oracle retry fuel a).result = .error
          (if isConstraintError e then
            "Database constraint violation: " ++ parseConstraintError e
          else if containsSubStr "timeout" e.msg then
            "Database query timed out - operation took too long"
          else "Database operation failed: " ++ e.msg) := by
  intro fuel
  induction fuel with
  | zero =>
    intro a k e hak h _ _ _
    simp [eqLoop] at h
    omega
  | succ fuel ih =>
    intro a k e hak h hke hd hc
    simp only [eqLoop] at h ⊢
    revert h
    rcases ho : oracle a with e' | r
    case ok =>
      intro h
      have hk2 : k < a + 1 := by simpa [eqStep] using h
      have hka : k = a := by omega
      subst hka
      simp [ho] at hke
    case error =>
      intro h
      simp only [eqStep] at h ⊢
      split_ifs at h with hd' hr hc' hr2 hcon htmo
      · -- deadlock, retrying
        have hka : a < k := by
          rcases Nat.eq_or_lt_of_le hak with hka | hka
          · exfalso
            rw [hka] at ho
            rw [ho] at hke
            injection hke with hee
            subst hee
            simp [hd'] at hd
          · exact hka
        rw [if_pos hd', if_pos hr]
        exact ih (a + 1) k e hka h hke hd hc
      · -- deadlock, retries exhausted: impossible for this error
        exfalso
        have hk2 : k < a + 1 := by simpa using h
        have hka : k = a := by omega
        subst hka
        rw [ho] at hke
        injection hke with hee
        subst hee
        simp [hd'] at hd
      · -- connection error, retrying
        have hka : a < k := by
          rcases Nat.eq_or_lt_of_le hak with hka | hka
          · exfalso
            rw [hka] at ho
            rw [ho] at hke
            injection hke with hee
            subst hee
            simp [hc'] at hc
          · exact hka
        rw [if_neg hd', if_pos hc', if_pos hr2]
        exact ih (a + 1) k e hka h hke hd hc
      · -- connection error, retries exhausted: impossible for this error
        exfalso
        have hk2 : k < a + 1 := by simpa using h
        have hka : k = a := by omega
        subst hka
        rw [ho] at hke
        injection hke with hee
        subst hee
        simp [hc'] at hc
      · -- constraint violation: stops at once
        have hk2 : k < a + 1 := by simpa using h
        have hka : k = a := by omega
        subst hka
        rw [ho] at hke
        injection hke with hee
        subst hee
        rw [if_neg hd', if_neg hc', if_pos hcon]
        simp [hcon]
      · -- timeout: stops at once
        have hk2 : k < a + 1 := by simpa using h
        have hka : k = a := by omega
        subst hka
        rw [ho] at hke
        injection hke with hee
        subst hee
        rw [if_neg hd', if_neg hc', if_neg hcon, if_pos htmo]
        simp [hcon, htmo]
      · -- generic error: stops at once
        have hk2 : k < a + 1 := by simpa using h
        have hka : k = a := by omega
        subst hka
        rw [ho] at hke
        injection hke with hee
        subst hee
        rw [if_neg hd', if_neg hc', if_neg hcon, if_neg htmo]
        simp [hcon, htmo]

/-- If every allowed attempt deadlocks, the loop ends with the
deadlock-exhaustion message after exactly `retry` attempts. -/
theorem eqLoop_all_deadlock {R : Type} (oracle : Nat → Except DbErr R) (retry : Nat) :
    ∀ (fuel a : Nat), a + fuel = retry → 0 < fuel →
      (∀ k, a ≤ k → k < retry → ∃ e, oracle k = .error e ∧ isDeadlockError e = true) →
      eqLoop oracle retry fuel a =
        ⟨.error "Database deadlock - operation failed after retries", retry⟩ := by
  intro fuel
  induction fuel with
  | zero => intro a _ h1 _; omega
  | succ fuel ih =>
    intro a hinv _ hall
    obtain ⟨e, he, hde⟩ := hall a le_rfl (by omega)
    simp only [eqLoop]
    rw [he]
    simp only [eqStep, hde, if_true]
    by_cases hr : a + 1 < retry
    · simp only [hr, if_true]
      exact ih (a + 1) (by omega) (by omega) (fun k hk1 hk2 => hall k (by omega) hk2)
    · simp only [hr, if_false]
      have h1 : a + 1 = retry := by omega
      rw [h1]

/-- Claim C4: for every valid query string, `DatabaseService.executeQuery`
retries only deadlock errors and connection errors, making at most
`this.retryAttempts` (3) attempts in total; an error that is neither (a
constraint violation, or a timeout) stops it at its first occurrence without
a further attempt, with the corresponding message; and after exhausting the
3 attempts on deadlocks it throws
`'Database deadlock - operation failed after retries'`. -/
theorem executeQuery_retry_spec {R : Type} (qs : String) (params : JsLite)
    (oracle : Nat → Except DbErr R) (hq : qs ≠ "")
    (hp : params.falsy = true ∨ params.isArr = true) :
    ((executeQuery dbService (.vstr qs) params oracle).attempts ≤ 3) ∧
    (∀ k, k + 1 < (executeQuery dbService (.vstr qs) params oracle).attempts →
      ∃ e, oracle k = .error e ∧
        (isDeadlockError e = true ∨ isConnectionError e = true)) ∧
    (∀ k e, k < (executeQuery dbService (.vstr qs) params oracle).attempts →
      oracle k = .error e → isDeadlockError e = false →
      isConnectionError e = false → isConstraintError e = true →
      (executeQuery dbService (.vstr qs) params oracle).result =
          .error ("Database constraint violation: " ++ parseConstraintError e) ∧
        (executeQuery dbService (.vstr qs) params oracle).attempts = k + 1) ∧
    (∀ k e, k < (executeQuery dbService (.vstr qs) params oracle).attempts →
      oracle k = .error e → isDeadlockError e = false →
      isConnectionError e = false → isConstraintError e = false →
      containsSubStr "timeout" e.msg = true →
      (executeQuery dbService (.vstr qs) params oracle).result =
          .error "Database query timed out - operation took too long" ∧
        (executeQuery dbService (.vstr qs) params oracle).attempts = k + 1) ∧
    ((∀ k, k < 3 → ∃ e, oracle k = .error e ∧ isDeadlockError e = true) →
      (executeQuery dbService (.vstr qs) params oracle).result =
          .error "Database deadlock - operation failed after retries" ∧
        (executeQuery dbService (.vstr qs) params oracle).attempts = 3) := by
  have hqf : (qs == "") = false := by simp [hq]
  have h1 : (JsLite.vstr qs).falsy = false := by simp [JsLite.falsy, hqf]
  have h2 : (JsLite.vstr qs).isStr = true := rfl
  have hrun : executeQuery dbService (.vstr qs) params oracle = eqLoop oracle 3 3 0 := by
    rcases hp with hp | hp <;> simp [executeQuery, h1, h2, hp, dbService]
  refine ⟨?_, ?_, ?_, ?_, ?_⟩ <;> rw [hrun]
  · simpa using eqLoop_attempts_le oracle 3 3 0
  · intro k hk
    exact eqLoop_retried_only oracle 3 3 0 k (Nat.zero_le k) hk
  · intro k e hk hke hd hc hcon
    obtain ⟨h1, h2⟩ := eqLoop_stops oracle 3 3 0 k e (Nat.zero_le k) hk hke hd hc
    rw [if_pos hcon] at h2
    exact ⟨h2, h1⟩
  · intro k e hk hke hd hc hcon htmo
    obtain ⟨h1, h2⟩ := eqLoop_stops oracle 3 3 0 k e (Nat.zero_le k) hk hke hd hc
    rw [if_neg (by simp [hcon]), if_pos htmo] at h2
    exact ⟨h2, h1⟩
  · intro hall
    have hdl := eqLoop_all_deadlock oracle 3 3 0 (by omega) (by omega)
      (fun k _ hk2 => hall k hk2)
    rw [hdl]
    exact ⟨rfl, rfl⟩

/-- Witness for C4: a duplicate-key constraint violation on the first attempt
stops `executeQuery` immediately with the constraint message. -/
theorem executeQuery_retry_spec_witness :
    ("SELECT 1" ≠ "") ∧
      ((JsLite.varr).falsy = true ∨ (JsLite.varr).isArr = true) ∧
      (executeQuery dbService (.vstr "SELECT 1") .varr
          (fun _ => (.error ⟨"ER_DUP_ENTRY", "Duplicate entry for key PRIMARY"⟩ :
            Except DbErr Nat))).result =
        .error "Database constraint violation: Duplicate entry - record already exists" ∧
      (executeQuery dbService (.vstr "SELECT 1") .varr
          (fun _ => (.error ⟨"ER_DUP_ENTRY", "Duplicate entry for key PRIMARY"⟩ :
            Except DbErr Nat))).attempts = 1 := by
  have h := (executeQuery_retry_spec "SELECT 1" .varr
    (fun _ => (.error ⟨"ER_DUP_ENTRY", "Duplicate entry for key PRIMARY"⟩ :
      Except DbErr Nat)) (by decide) (Or.inr rfl)).2.2.1 0
    ⟨"ER_DUP_ENTRY", "Duplicate entry for key PRIMARY"⟩
    (by decide) rfl (by decide) (by decide) (by decide)
  exact ⟨by decide, Or.inr rfl, by simpa using h.1, by simpa using h.2⟩

/-- The login retry loop makes at most `fuel` fetch attempts. -/
theorem loginLoop_fetches_le {U : Type} (oracle : Nat → LoginOutcome U) :
    ∀ (fuel a : Nat), (loginLoop oracle fuel a).fetches ≤ fuel := by
  intro fuel
  induction fuel with
  | zero => intro a; simp [loginLoop]
  | succ fuel ih =>
    intro a
    simp only [loginLoop]
    rcases hla : loginAttempt (oracle a) with ⟨name, msg⟩ | v <;>
      simp only [loginStep]
    · by_cases hn : loginNoRetry name msg = true
      · rw [if_pos hn]; simp
      · rw [if_neg hn]
        by_cases hrl : loginRateLimited msg = true
        · rw [if_pos hrl]; simp
        · rw [if_neg hrl]
          by_cases hf : fuel = 0
          · rw [if_pos hf]; simp
          · rw [if_neg hf]
            have := ih (a + 1)
            show (loginLoop oracle fuel (a + 1)).fetches + 1 ≤ fuel + 1
            omega
    · simp

/-- A 401 or 429 response makes the current login attempt throw an error the
catch block refuses to retry. -/
theorem status_noRetry {U : Type} (out : LoginOutcome U)
    (h : outcomeStatus out = some 401 ∨ outcomeStatus out = some 429) :
    ∃ msg, loginAttempt out = .error ("Error", msg) ∧
      (loginNoRetry "Error" msg = true ∨ loginRateLimited msg = true) := by
  rcases out with ⟨n, m⟩ | r
  · simp [outcomeStatus] at h
  · simp only [outcomeStatus, Option.some.injEq] at h
    rcases h with hs | hs
    · refine ⟨"Invalid email or password", ?_, Or.inl (by decide)⟩
      simp [loginAttempt, hs, respOk, loginHttpErrMsg]
    · refine ⟨"Too many login attempts. Please try again later", ?_, Or.inr (by decide)⟩
      simp [loginAttempt, hs, respOk, loginHttpErrMsg]

/-- If the attempt numbered `k` was made and got a 401 or 429 response, the
login loop made no attempt after `k`. -/
theorem loginLoop_halt_status {U : Type} (oracle : Nat → LoginOutcome U) :
    ∀ (fuel a k : Nat), a ≤ k →
      k < a + (loginLoop oracle fuel a).fetches →
      (outcomeStatus (oracle k) = some 401 ∨ outcomeStatus (oracle k) = some 429) →
      a + (loginLoop oracle fuel a).fetches = k + 1 := by
  intro fuel
  induction fuel with
  | zero =>
    intro a k hak h _
    simp [loginLoop] at h
    omega
  | succ fuel ih =>
    intro a k hak h hst
    simp only [loginLoop] at h ⊢
    rcases Nat.eq_or_lt_of_le hak with hka | hka
    · subst hka
      obtain ⟨msg, hmsg, hnr⟩ := status_noRetry (oracle a) hst
      rw [hmsg] at h ⊢
      rcases hnr with hnr | hnr
      · simp [loginStep, hnr]
      · by_cases hn2 : loginNoRetry "Error" msg
        · simp [loginStep, hn2]
        · simp [loginStep, hn2, hnr]
    · revert h
      rcases hla : loginAttempt (oracle a) with ⟨name, msg⟩ | v <;>
        simp only [loginStep]
      · by_cases hn : loginNoRetry name msg = true
        · rw [if_pos hn]; intro h; simp at h; omega
        · rw [if_neg hn]
          by_cases hrl : loginRateLimited msg = true
          · rw [if_pos hrl]; intro h; simp at h; omega
          · rw [if_neg hrl]
            by_cases hf : fuel = 0
            · rw [if_pos hf]; intro h; simp at h; omega
            · rw [if_neg hf]
              intro h
              have hlt : k < a + ((loginLoop oracle fuel (a + 1)).fetches + 1) := by
                simpa using h
              have hrest := ih (a + 1) k hka (by omega) hst
              show a + ((loginLoop oracle fuel (a + 1)).fetches + 1) = k + 1
              omega
      · intro h
        omega

/-- The delays recorded by the login loop starting at attempt `a ≥ 1` follow
the capped exponential backoff schedule. -/
theorem loginLoop_delays {U : Type} (oracle : Nat → LoginOutcome U) :
    ∀ (fuel a : Nat), 1 ≤ a →
      (loginLoop oracle fuel a).delays =
        (List.range (loginLoop oracle fuel a).delays.length).map
          (fun j => min (1000 * 2 ^ (a - 1 + j)) 5000) := by
  intro fuel
  induction fuel with
  | zero => intro a _; simp [loginLoop]
  | succ fuel ih =>
    intro a ha
    simp only [loginLoop]
    rcases hla : loginAttempt (oracle a) with ⟨name, msg⟩ | v <;>
      simp only [loginStep]
    · by_cases hn : loginNoRetry name msg = true
      · rw [if_pos hn]; simp
      · rw [if_neg hn]
        by_cases hrl : loginRateLimited msg = true
        · rw [if_pos hrl]; simp
        · rw [if_neg hrl]
          by_cases hf : fuel = 0
          · rw [if_pos hf]; simp
          · rw [if_neg hf]
            have hrec := ih (a + 1) (by omega)
            show loginDelay a :: (loginLoop oracle fuel (a + 1)).delays =
              (List.range
                (loginDelay a :: (loginLoop oracle fuel (a + 1)).delays).length).map
                (fun j => min (1000 * 2 ^ (a - 1 + j)) 5000)
            rw [List.length_cons, List.range_succ_eq_map, List.map_cons,
              List.map_map]
            congr 1
            · conv_lhs => rw [hrec]
              apply List.map_congr_left
              intro j hj
              simp only [Function.comp]
              rw [show a + 1 - 1 + j = a - 1 + (j + 1) from by omega]
    · simp [loginStep]

/-- Claim C5: whenever the email is null, empty or not a string, or fails the
validation regexp, or the password is null, not a string, or shorter than 8
characters, `loginUserSecure` throws one of its three validation errors
before any network request: no fetch attempt is made. -/
theorem loginUserSecure_validation {U : Type} (email password : JsLite)
    (oracle : Nat → LoginOutcome U)
    (h : email.falsy = true ∨ email.isStr = false ∨
      (∃ es, email = .vstr es ∧ emailRegexTest es = false) ∨
      password.falsy = true ∨ password.isStr = false ∨ password.strLen < 8) :
    (loginUserSecure email password oracle).fetches = 0 ∧
      ∃ m, (loginUserSecure email password oracle).result = .error m ∧
        (m = "Valid email address is required" ∨
         m = "Password must be at least 8 characters long" ∨
         m = "Please enter a valid email address") := by
  by_cases h1 : (email.falsy || !email.isStr) = true
  · exact ⟨by simp [loginUserSecure, h1], "Valid email address is required",
      by simp [loginUserSecure, h1], Or.inl rfl⟩
  · have h1' : (email.falsy || !email.isStr) = false := by simpa using h1
    by_cases h2 : (password.falsy || !password.isStr || decide (password.strLen < 8)) = true
    · exact ⟨by simp [loginUserSecure, h1', h2],
        "Password must be at least 8 characters long",
        by simp [loginUserSecure, h1', h2], Or.inr (Or.inl rfl)⟩
    · have h2' : (password.falsy || !password.isStr ||
          decide (password.strLen < 8)) = false := by simpa using h2
      by_cases h3 : emailRegexTest email.asStr = true
      · exfalso
        simp only [Bool.or_eq_false_iff, Bool.not_eq_true'] at h1' h2'
        obtain ⟨⟨hpf, hps⟩, hplen⟩ := h2'
        obtain ⟨hef, hes⟩ := h1'
        rcases h with h | h | ⟨es, rfl, hre⟩ | h | h | h
        · rw [h] at hef; cases hef
        · rw [h] at hes; cases hes
        · simp [JsLite.asStr] at h3
          rw [h3] at hre; cases hre
        · rw [h] at hpf; cases hpf
        · rw [h] at hps; cases hps
        · rw [decide_eq_false_iff_not] at hplen
          exact hplen h
      · have h3' : emailRegexTest email.asStr = false := by simpa using h3
        exact ⟨by simp [loginUserSecure, h1', h2', h3'],
          "Please enter a valid email address",
          by simp [loginUserSecure, h1', h2', h3'], Or.inr (Or.inr rfl)⟩

/-- Witness for C5: a null email is rejected with no fetch attempt. -/
theorem loginUserSecure_validation_witness :
    ((JsLite.vnull).falsy = true) ∧
      (loginUserSecure .vnull (.vstr "password1")
          (fun _ => (.fetchThrow "TypeError" "Failed to fetch" :
            LoginOutcome Nat))).fetches = 0 := by
  refine ⟨rfl, ?_⟩
  exact (loginUserSecure_validation .vnull (.vstr "password1")
    (fun _ => (.fetchThrow "TypeError" "Failed to fetch" : LoginOutcome Nat))
    (Or.inl rfl)).1

/-- Claim C6: with valid inputs `loginUserSecure` makes at most `maxRetries`
(3) fetch attempts; no further attempt follows a 401 (invalid credentials)
or 429 (rate limited) response; and the delays between consecutive retried
attempts follow `1000 * 2^(attempt-1)` milliseconds capped at 5000. -/
theorem loginUserSecure_retry_spec {U : Type} (email password : JsLite)
    (oracle : Nat → LoginOutcome U)
    (hv1 : (email.falsy || !email.isStr) = false)
    (hv2 : (password.falsy || !password.isStr ||
      decide (password.strLen < 8)) = false)
    (hv3 : emailRegexTest email.asStr = true) :
    ((loginUserSecure email password oracle).fetches ≤ 3) ∧
    (∀ k, 1 ≤ k → k ≤ (loginUserSecure email password oracle).fetches →
      (outcomeStatus (oracle k) = some 401 ∨ outcomeStatus (oracle k) = some 429) →
      (loginUserSecure email password oracle).fetches = k) ∧
    ((loginUserSecure email password oracle).delays =
      (List.range (loginUserSecure email password oracle).delays.length).map
        (fun j => min (1000 * 2 ^ j) 5000)) := by
  have hrun : loginUserSecure email password oracle = loginLoop oracle 3 1 := by
    simp [loginUserSecure, hv1, hv2, hv3]
  refine ⟨?_, ?_, ?_⟩ <;> rw [hrun]
  · exact loginLoop_fetches_le oracle 3 1
  · intro k hk1 hk2 hst
    have := loginLoop_halt_status oracle 3 1 k hk1 (by omega) hst
    omega
  · have := loginLoop_delays oracle 3 1 (by omega)
    simpa using this

/-- Witness for C6: a 401 response on the first attempt stops the loop after
exactly one fetch. -/
theorem loginUserSecure_retry_spec_witness :
    (((JsLite.vstr "user@example.com").falsy ||
        !(JsLite.vstr "user@example.com").isStr) = false) ∧
      (loginUserSecure (.vstr "user@example.com") (.vstr "password1")
          (fun _ => (.resp ⟨401, "Unauthorized", true, .ok .nonObj⟩ :
            LoginOutcome Nat))).fetches = 1 := by
  refine ⟨by decide, ?_⟩
  exact (loginUserSecure_retry_spec (.vstr "user@example.com") (.vstr "password1")
    (fun _ => (.resp ⟨401, "Unauthorized", true, .ok .nonObj⟩ : LoginOutcome Nat))
    (by decide) (by decide) (by decide)).2.1 1 (by decide) (by decide) (Or.inl rfl)

/-- Every settled iteration of the `request` loop made at least one fetch. -/
theorem reqStep_fetches_pos (now : Int) (fuel : Nat)
    (next : CircuitBreaker → RequestRun) (cb : CircuitBreaker) (out : ApiOutcome) :
    1 ≤ (reqStep now fuel next cb out).fetches := by
  cases out <;> simp only [reqStep] <;> split_ifs <;> simp

/-- Claim C1 (amended): while the circuit breaker is open — at least
`threshold` recorded failures and fewer than `resetTimeout` milliseconds
since `lastFailure` — `request` throws
`'Service temporarily unavailable. Please try again later.'` without any
fetch attempt (and without touching the breaker); once `resetTimeout`
milliseconds have elapsed since the last recorded failure, a call with a
valid (non-empty string) endpoint while the browser is online proceeds to
attempt the network call again. -/
theorem request_circuit_spec (cfg : ApiClientCfg) (cb : CircuitBreaker)
    (now : Int) (online : Bool) (endpoint : JsLite) (oracle : Nat → ApiOutcome) :
    (∀ t, cb.lastFailure = some t → cb.threshold ≤ cb.failures →
      now - t < cb.resetTimeout →
      request cfg cb now online endpoint oracle =
        ⟨.error "Service temporarily unavailable. Please try again later.", 0, cb⟩) ∧
    (∀ t es, cb.lastFailure = some t → cb.threshold ≤ cb.failures →
      cb.resetTimeout ≤ now - t → endpoint = .vstr es → es ≠ "" →
      online = true → 1 ≤ cfg.maxRetries →
      1 ≤ (request cfg cb now online endpoint oracle).fetches) := by
  constructor
  · intro t hlf hth hlt
    have hopen : isCircuitOpen cb now = true := by
      simp [isCircuitOpen, hth, hlf, hlt]
    simp [request, hopen]
  · intro t es hlf hth hge hes hne honline hmr
    have hnotlt : ¬(now - t < cb.resetTimeout) := not_lt.mpr hge
    have hopen : isCircuitOpen cb now = false := by
      simp [isCircuitOpen, hth, hlf, hnotlt]
    subst hes
    subst honline
    have hef : (JsLite.vstr es).falsy = false := by simp [JsLite.falsy, hne]
    obtain ⟨f, hf⟩ : ∃ f, cfg.maxRetries = f + 1 := ⟨cfg.maxRetries - 1, by omega⟩
    have hreq : request cfg cb now true (.vstr es) oracle =
        reqStep now f (fun cb2 => reqLoop oracle now true f 2 cb2) cb (oracle 1) := by
      simp [request, hopen, hef, JsLite.isStr, hf, reqLoop]
    rw [hreq]
    exact reqStep_fetches_pos now f _ cb (oracle 1)

/-- Counterexample for C1 as stated: this client's breaker has tripped
(5 failures ≥ threshold 5) and a full `resetTimeout` has elapsed since the
last failure, yet the call to `request` makes no fetch attempt, because the
endpoint argument (`null`) fails validation first — `request` does not
unconditionally "proceed to attempt the network call again". -/
theorem request_circuit_counterexample :
    ((⟨5, some 0, 5, 60000⟩ : CircuitBreaker).threshold ≤
        (⟨5, some 0, 5, 60000⟩ : CircuitBreaker).failures) ∧
      ((⟨5, some 0, 5, 60000⟩ : CircuitBreaker).resetTimeout ≤ (60000 : Int) - 0) ∧
      (request {} ⟨5, some 0, 5, 60000⟩ 60000 true .vnull
          (fun _ => .resp 200 "OK" none none none)).fetches = 0 := by
  exact ⟨by decide, by decide, rfl⟩

/-- Witness for the amended C1: with the breaker's reset window elapsed, a
valid endpoint and an online browser, the network is attempted. -/
theorem request_circuit_spec_witness :
    ((⟨5, some 0, 5, 60000⟩ : CircuitBreaker).lastFailure = some 0) ∧
      1 ≤ (request {} ⟨5, some 0, 5, 60000⟩ 60000 true (.vstr "/posts")
        (fun _ => .resp 200 "OK" none none none)).fetches := by
  refine ⟨rfl, ?_⟩
  exact (request_circuit_spec {} ⟨5, some 0, 5, 60000⟩ 60000 true (.vstr "/posts")
    (fun _ => .resp 200 "OK" none none none)).2 0 "/posts" rfl (by decide) (by decide)
    rfl (by decide) rfl (by decide)

/-- Claim C3 (the path-traversal bug): with `allowRelativePaths = false`,
sanitizing `'a....//b'` yields `'a../b'`, which still contains `'../'` — the
single-pass removal of `'../'` can splice new traversal sequences together,
so the sanitizer does not guarantee a traversal-free result as its own
"Handle path traversal attacks" and "Path traversal attempt detected"
comments intend. -/
theorem sanitizeFilePathRobust_traversal_bug :
    sanitizeFilePathRobust (some "a....//b") {} = "a../b" ∧
      ({} : SanOptions).allowRelativePaths = false ∧
      containsSubStr "../" (sanitizeFilePathRobust (some "a....//b") {}) = true := by
  exact ⟨by decide, rfl, by decide⟩

/-- A matching pattern is no longer than what it matched against. -/
theorem startsWithL_length :
    ∀ (pat l : List Char), startsWithL pat l = true → pat.length ≤ l.length := by
  intro pat
  induction pat with
  | nil => intro l _; simp
  | cons p ps ih =>
    intro l h
    cases l with
    | nil => simp [startsWithL] at h
    | cons c cs =>
      simp only [startsWithL, Bool.and_eq_true] at h
      have := ih cs h.2
      simp only [List.length_cons]
      omega

/-- Global replacement by a no-longer replacement never lengthens a string. -/
theorem replaceAllL_length (p : Char) (ps rep : List Char)
    (h : rep.length ≤ ps.length + 1) :
    ∀ l : List Char, (replaceAllL p ps rep l).length ≤ l.length := by
  suffices H : ∀ n, ∀ l : List Char, l.length ≤ n →
      (replaceAllL p ps rep l).length ≤ l.length from
    fun l => H l.length l le_rfl
  intro n
  induction n with
  | zero =>
    intro l hl
    have hnil : l = [] := List.length_eq_zero.mp (Nat.le_zero.mp hl)
    subst hnil
    simp [replaceAllL]
  | succ n ih =>
    intro l hl
    match l with
    | [] => simp [replaceAllL]
    | c :: cs =>
      rw [replaceAllL]
      by_cases hm : startsWithL (p :: ps) (c :: cs) = true
      · rw [if_pos hm]
        have hfit := startsWithL_length (p :: ps) (c :: cs) hm
        have hrec := ih (cs.drop ps.length) (by
          simp only [List.length_drop]
          simp only [List.length_cons] at hl
          omega)
        simp only [List.length_cons] at hfit hl ⊢
        simp only [List.length_append, List.length_drop] at hrec ⊢
        omega
      · rw [if_neg hm]
        have hrec := ih cs (by simp only [List.length_cons] at hl; omega)
        simp only [List.length_cons]
        omega

/-- `repAll` with a no-longer replacement never lengthens a string. -/
theorem repAll_length (pat rep : List Char) (h : rep.length ≤ pat.length)
    (l : List Char) : (repAll pat rep l).length ≤ l.length := by
  match pat with
  | [] => simp [repAll]
  | p :: ps =>
    exact replaceAllL_length p ps rep (by simpa using h) l

/-- Tag stripping never lengthens a string (the tag-scanning helper is
bounded by its saved suffix plus the opening `<`). -/
theorem stripTags_length_aux :
    ∀ n : Nat,
      (∀ l : List Char, l.length ≤ n → (stripTags l).length ≤ l.length) ∧
      (∀ orig l : List Char, l.length ≤ n → l.length ≤ orig.length →
        (stripTagsTag orig l).length ≤ orig.length + 1) := by
  intro n
  induction n with
  | zero =>
    constructor
    · intro l hl
      have hnil : l = [] := List.length_eq_zero.mp (Nat.le_zero.mp hl)
      subst hnil
      simp [stripTags]
    · intro orig l hl _
      have hnil : l = [] := List.length_eq_zero.mp (Nat.le_zero.mp hl)
      subst hnil
      simp [stripTagsTag]
  | succ n ih =>
    constructor
    · intro l hl
      match l with
      | [] => simp [stripTags]
      | c :: rest =>
        rw [stripTags]
        by_cases hc : c = '<'
        · rw [if_pos hc]
          have := ih.2 rest rest (by simp only [List.length_cons] at hl; omega) le_rfl
          simp only [List.length_cons]
          omega
        · rw [if_neg hc]
          have := ih.1 rest (by simp only [List.length_cons] at hl; omega)
          simp only [List.length_cons]
          omega
    · intro orig l hl hlo
      match l with
      | [] => simp [stripTagsTag]
      | c :: rest =>
        rw [stripTagsTag]
        by_cases hc : c = '>'
        · rw [if_pos hc]
          have := ih.1 rest (by simp only [List.length_cons] at hl; omega)
          simp only [List.length_cons] at hlo
          omega
        · rw [if_neg hc]
          exact ih.2 orig rest (by simp only [List.length_cons] at hl; omega)
            (by simp only [List.length_cons] at hlo; omega)

/-- Tag stripping never lengthens a string. -/
theorem stripTags_length (l : List Char) : (stripTags l).length ≤ l.length :=
  (stripTags_length_aux l.length).1 l le_rfl

/-- Entity decoding never lengthens a string (every entity is longer than its
one-character decoding). -/
theorem decodeEntities_length (l : List Char) :
    (decodeEntities l).length ≤ l.length := by
  unfold decodeEntities
  exact le_trans (repAll_length _ _ (by decide) _)
    (le_trans (repAll_length _ _ (by decide) _)
      (le_trans (repAll_length _ _ (by decide) _)
        (le_trans (repAll_length _ _ (by decide) _)
          (le_trans (repAll_length _ _ (by decide) _)
            (repAll_length _ _ (by decide) _)))))

/-- The whole `stripHTML` branch never lengthens a string. -/
theorem stripHTMLStep_length (l : List Char) :
    (stripHTMLStep l).length ≤ l.length := by
  unfold stripHTMLStep
  exact le_trans (decodeEntities_length _) (stripTags_length l)

/-- Collapsing space runs never lengthens a string. -/
theorem collapseSpaces_length : ∀ l : List Char,
    (collapseSpaces l).length ≤ l.length := by
  intro l
  induction l with
  | nil => simp [collapseSpaces]
  | cons c rest ih =>
    cases rest with
    | nil => simp [collapseSpaces]
    | cons c2 rest2 =>
      show (if c = ' ' ∧ c2 = ' ' then collapseSpaces (c2 :: rest2)
        else c :: collapseSpaces (c2 :: rest2)).length ≤ (c :: c2 :: rest2).length
      by_cases h : c = ' ' ∧ c2 = ' '
      · rw [if_pos h]
        refine le_trans ih ?_
        simp
      · rw [if_neg h]
        simp only [List.length_cons] at ih ⊢
        omega

/-- The CRLF pass never lengthens a string. -/
theorem crlfToLf_length : ∀ l : List Char, (crlfToLf l).length ≤ l.length := by
  suffices H : ∀ n, ∀ l : List Char, l.length ≤ n →
      (crlfToLf l).length ≤ l.length from fun l => H l.length l le_rfl
  intro n
  induction n with
  | zero =>
    intro l hl
    have hnil : l = [] := List.length_eq_zero.mp (Nat.le_zero.mp hl)
    subst hnil
    simp [crlfToLf]
  | succ n ih =>
    intro l hl
    match l with
    | [] => simp [crlfToLf]
    | [c] => simp [crlfToLf]
    | c :: c2 :: rest =>
      show (if c = '\r' ∧ c2 = '\n' then '\n' :: crlfToLf rest
        else c :: crlfToLf (c2 :: rest)).length ≤ (c :: c2 :: rest).length
      simp only [List.length_cons] at hl
      by_cases h : c = '\r' ∧ c2 = '\n'
      · rw [if_pos h]
        have := ih rest (by omega)
        simp only [List.length_cons]
        omega
      · rw [if_neg h]
        have := ih (c2 :: rest) (by simp only [List.length_cons]; omega)
        simp only [List.length_cons] at this ⊢
        omega

/-- Dropping a while-prefix never lengthens a list. -/
theorem dropWhile_length_le (p : Char → Bool) (l : List Char) :
    (l.dropWhile p).length ≤ l.length :=
  (List.dropWhile_suffix p).sublist.length_le

/-- Trimming never lengthens a string. -/
theorem jsTrimL_length (l : List Char) : (jsTrimL l).length ≤ l.length := by
  unfold jsTrimL
  simp only [List.length_reverse]
  refine le_trans (dropWhile_length_le _ _) ?_
  simp only [List.length_reverse]
  exact dropWhile_length_le _ _

/-- The line-ending step never lengthens a string. -/
theorem ptrLines_length (o : PTROptions) (l : List Char) :
    (ptrLines o l).length ≤ l.length := by
  unfold ptrLines normalizeLineEndings newlinesToSpaces
  split_ifs <;> simp only [List.length_map] <;> exact crlfToLf_length l

/-- The whitespace-normalization step never lengthens a string. -/
theorem ptrWs_length (o : PTROptions) (l : List Char) :
    (ptrWs o l).length ≤ l.length := by
  unfold ptrWs
  split_ifs with h
  · refine le_trans (collapseSpaces_length _) ?_
    refine le_trans (ptrLines_length o _) ?_
    simp [wsToSpace]
  · exact le_rfl

/-- The control-character step never lengthens a string. -/
theorem ptrCtrl_length (o : PTROptions) (l : List Char) :
    (ptrCtrl o l).length ≤ l.length := by
  unfold ptrCtrl removeCtrl
  split_ifs
  · exact List.length_filter_le _ _
  · exact le_rfl

/-- The HTML step never lengthens a string. -/
theorem ptrHtml_length (o : PTROptions) (l : List Char) :
    (ptrHtml o l).length ≤ l.length := by
  unfold ptrHtml
  split_ifs
  · exact stripHTMLStep_length l
  · exact le_rfl

/-- The trim step never lengthens a string. -/
theorem ptrTrim_length (o : PTROptions) (l : List Char) :
    (ptrTrim o l).length ≤ l.length := by
  unfold ptrTrim
  split_ifs
  · exact jsTrimL_length l
  · exact le_rfl

/-- The final null-byte sweep never lengthens a string. -/
theorem ptrFinal_length (l : List Char) : (ptrFinal l).length ≤ l.length := by
  unfold ptrFinal removeNullBytes
  split_ifs
  · simp
  · exact List.length_filter_le _ _
  · exact le_rfl

/-- The RTL step adds at most the two directional markers. -/
theorem rtlWrap_length (l : List Char) : (rtlWrap l).length ≤ l.length + 2 := by
  unfold rtlWrap
  split_ifs <;> simp

/-- The truncation step bounds the text at `maxLength`. -/
theorem ptrTruncate_le (o : PTROptions) (l : List Char) :
    (ptrTruncate o l).length ≤ o.maxLength := by
  unfold ptrTruncate
  split_ifs with h
  · simp [List.length_take]
  · omega

/-- Counterexample for C7 as stated: processing the one-character RTL text
`'א'` with `maxLength := 1` returns a 3-character string — the
bidirectional-text step appends its two markers after truncation, so the
result is not bounded by `maxLength`.  `'א'` (U+05D0) is NFC-normal, so the
identity instantiation of `nfc` agrees with the real
`String.prototype.normalize('NFC')` on this input. -/
theorem processTextRobust_maxLength_counterexample :
    ¬((processTextRobust (fun l => l) (some "א") { maxLength := 1 }).length ≤
        ({ maxLength := 1 } : PTROptions).maxLength) := by
  decide

/-- Real NFC can also break a `maxLength + 2` bound: U+0958 (DEVANAGARI
LETTER QA) is composition-excluded with canonical decomposition
U+0915 U+093C, and on a string of U+0958 characters NFC acts exactly
pointwise (no adjacent pair here recomposes), which is what the `nfc`
instantiation below implements.  Three U+0958 characters with
`maxLength := 3` pass truncation untouched and normalize to 6 characters —
above `maxLength + 2 = 5` — so the factor 3 in the amended bound is forced
by the program. -/
theorem processTextRobust_nfc_expansion :
    (processTextRobust
        (fun l => (l.map (fun c =>
          if c = Char.ofNat 0x958 then [Char.ofNat 0x915, Char.ofNat 0x93C]
          else [c])).flatten)
        (some ⟨[Char.ofNat 0x958, Char.ofNat 0x958, Char.ofNat 0x958]⟩)
        { maxLength := 3 }).length = 6 := by
  decide

/-- The `handleUnicode` step expands the text at most threefold when the
normalization function does. -/
theorem ptrNfc_length (nfc : List Char → List Char)
    (hn : ∀ l : List Char, (nfc l).length ≤ 3 * l.length) (o : PTROptions)
    (l : List Char) : (ptrNfc nfc o l).length ≤ 3 * l.length := by
  unfold ptrNfc
  split_ifs
  · exact hn l
  · omega

/-- Claim C7 (amended): for every input, every options object and every
normalization function within NFC's documented maximum expansion factor of
3 (UAX #15), the result of `processTextRobust` has length at most
`3 * maxLength + 2`: input longer than `maxLength` is truncated to
`maxLength` before further cleaning, Unicode NFC normalization can then
expand the text at most threefold, the bidirectional-text handling adds the
two RTL marker characters, and no other step lengthens the result. -/
theorem processTextRobust_length (nfc : List Char → List Char)
    (hn : ∀ l : List Char, (nfc l).length ≤ 3 * l.length)
    (text : Option String) (o : PTROptions) :
    (processTextRobust nfc text o).length ≤ 3 * o.maxLength + 2 := by
  match text with
  | none => simp [processTextRobust]
  | some s =>
    show (String.mk (processTextCore nfc s.data o)).length ≤ 3 * o.maxLength + 2
    have hcore : (processTextCore nfc s.data o).length ≤ 3 * o.maxLength + 2 := by
      unfold processTextCore
      split_ifs with h
      · simp
      · refine le_trans (ptrFinal_length _) (le_trans (ptrTrim_length o _) ?_)
        refine le_trans (rtlWrap_length _) ?_
        have hnfc := ptrNfc_length nfc hn o
          (ptrWs o (ptrHtml o (ptrCtrl o (ptrTruncate o s.data))))
        have hchain := le_trans (ptrWs_length o _)
          (le_trans (ptrHtml_length o _)
            (le_trans (ptrCtrl_length o _) (ptrTruncate_le o s.data)))
        omega
    simpa [String.length] using hcore

/-- Witness for the amended C7: the identity is within NFC's expansion
bound, and a plain text stays within `3 * maxLength + 2`. -/
theorem processTextRobust_length_witness :
    (∀ l : List Char, ((fun x : List Char => x) l).length ≤ 3 * l.length) ∧
      (processTextRobust (fun x => x) (some "hello") {}).length ≤
        3 * ({} : PTROptions).maxLength + 2 := by
  refine ⟨fun l => by show l.length ≤ 3 * l.length; omega, ?_⟩
  exact processTextRobust_length (fun x => x)
    (fun l => by show l.length ≤ 3 * l.length; omega) (some "hello") {}

end Ghcp
